import Mathlib

/-!
Shallow embedding of `src/slug.py` (Django unique-slug utility).

Python strings are modelled as `List Char`. The external slug normalizer
(`django.utils.text.slugify`) and the record store (the Django ORM) are
external collaborators: the normalizer output (`raw_slug`) and the store
(a function answering the startswith query with the slug values of the
other records that match `filter_kwargs`, the saved instance excluded)
are parameters of the embedded functions. Randomness (`random.choice`)
is modelled by an oracle stream of natural numbers; the unbounded
`while True` loop is modelled with a finite supply of per-iteration
oracles, returning `none` when the supply is exhausted, so every actual
return of the Python loop corresponds to a run with some finite supply.
-/

/-- Python's `e.startswith(p)`: `startswith e p` is true when `p` is an
initial segment of `e`. -/
def startswith : List Char → List Char → Bool
  | _, [] => true
  | [], _ :: _ => false
  | c :: s, c' :: p => c = c' && startswith s p

/-- Python's `s[:n]` for an `int` bound `n` (negative bounds count from the
end, clamped at zero). -/
def pyTake (s : List Char) (n : Int) : List Char :=
  if 0 ≤ n then s.take n.toNat else s.take (s.length - n.natAbs)

/-- The abstract error of `resolve_field_value` (a `ValueError` in the code,
`PathResolutionError` in the spec): it carries the full original path and the
root instance's class name. -/
structure PathResolutionError where
  path : List Char
  rootType : List Char

/-- A Python object graph node: class name, `str()` representation, and the
named attributes `getattr` can reach. -/
inductive Obj : Type where
  | mk : List Char → List Char → List (List Char × Obj) → Obj

def Obj.className : Obj → List Char
  | .mk c _ _ => c

def Obj.strRep : Obj → List Char
  | .mk _ s _ => s

def Obj.attrs : Obj → List (List Char × Obj)
  | .mk _ _ a => a

/-- `getattr(o, name)`: `none` models an `AttributeError`. -/
def getattr (o : Obj) (name : List Char) : Option Obj :=
  (o.attrs.find? (fun p => p.fst == name)).map (fun p => p.snd)

/-- Python's `field_name.split("__")` (greedy, left to right; keeps empty
pieces, and the split of the empty string is `[""]`). -/
def splitDunder : List Char → List (List Char)
  | [] => [[]]
  | '_' :: '_' :: rest => [] :: splitDunder rest
  | c :: rest =>
    match splitDunder rest with
    | t :: ts => (c :: t) :: ts
    | [] => [[c]]

/-- The `for attr in attrs: value = getattr(value, attr)` traversal;
`none` as soon as one `getattr` raises. -/
def resolveAttrs : Obj → List (List Char) → Option Obj
  | v, [] => some v
  | v, a :: rest =>
    match getattr v a with
    | none => none
    | some v' => resolveAttrs v' rest

/-- `resolve_field_value` from `src/slug.py`: split the path on `"__"`,
traverse with `getattr`, return `str(value)`; on any failed lookup raise the
error carrying the full path and the root's class name. -/
def resolve_field_value (obj : Obj) (field_name : List Char) :
    Except PathResolutionError (List Char) :=
  match resolveAttrs obj (splitDunder field_name) with
  | some v => .ok v.strRep
  | none => .error ⟨field_name, obj.className⟩

/-- One call of `random.choice(chars)`, fed by the oracle value `r`:
some index into `chars`; `none` models the `IndexError` on an empty
charset. -/
def random_choice (chars : List Char) (r : Nat) : Option Char :=
  chars[r % chars.length]?

/-- The comprehension `(random.choice(chars) for _ in range(size))`, one
oracle value per position. -/
def choice_list (chars : List Char) (r : Nat → Nat) : List Nat → Option (List Char)
  | [] => some []
  | i :: is =>
    match random_choice chars (r i), choice_list chars r is with
    | some c, some cs => some (c :: cs)
    | _, _ => none

/-- `random_string_generator(size, chars)` from `src/slug.py`, fed by the
oracle `r`. -/
def random_string_generator (size : Nat) (chars : List Char) (r : Nat → Nat) :
    Option (List Char) :=
  choice_list chars r (List.range size)

/-- One iteration body of the `while True` loop in `generate_unique_slug`:
draw the suffix, compute `allowed_base_length = max_length - len(suffix)`,
trim the base with Python slicing, and concatenate. -/
def loop_candidate (base_slug : List Char) (max_length : Nat) (size : Nat)
    (charset : List Char) (r : Nat → Nat) : Option (List Char) :=
  match random_string_generator size charset r with
  | none => none
  | some rnd =>
    let suffix := '-' :: rnd
    let allowed_base_length : Int := (max_length : Int) - (suffix.length : Int)
    let trimmed_base := pyTake base_slug allowed_base_length
    some (trimmed_base ++ suffix)

/-- The `while True` collision-resolution loop, with one randomness oracle
per iteration; `none` when the finite oracle supply runs out (the Python
loop would keep drawing) or the charset is empty. -/
def slugLoop (base_slug : List Char) (existing_slugs : List (List Char))
    (size : Nat) (charset : List Char) (max_length : Nat) :
    List (Nat → Nat) → Option (List Char)
  | [] => none
  | r :: rest =>
    match loop_candidate base_slug max_length size charset r with
    | none => none
    | some new_slug =>
      if new_slug ∈ existing_slugs then
        slugLoop base_slug existing_slugs size charset max_length rest
      else
        some new_slug

/-- `generate_unique_slug` from `src/slug.py`, from step 3 on (the
normalizer output `raw_slug` and the record store are parameters):
truncate to `max_length`, take the startswith snapshot once, return the
base if it is not in the snapshot, otherwise run the collision loop
against the snapshot. -/
def generate_unique_slug (raw_slug : List Char)
    (store : List Char → List (List Char)) (random_digits_size : Nat)
    (charset : List Char) (max_length : Nat) (entropy : List (Nat → Nat)) :
    Option (List Char) :=
  let base_slug := raw_slug.take max_length
  let existing_slugs := store base_slug
  if base_slug ∈ existing_slugs then
    slugLoop base_slug existing_slugs random_digits_size charset max_length entropy
  else
    some base_slug

/-- The same function, also counting the record-store queries it performs:
exactly one (the snapshot on line 138), before the loop. -/
def generate_unique_slug_query_count (raw_slug : List Char)
    (store : List Char → List (List Char)) (random_digits_size : Nat)
    (charset : List Char) (max_length : Nat) (entropy : List (Nat → Nat)) :
    Option (List Char) × Nat :=
  let base_slug := raw_slug.take max_length
  let existing_slugs := store base_slug
  let queries := 1
  (if base_slug ∈ existing_slugs then
    slugLoop base_slug existing_slugs random_digits_size charset max_length entropy
  else
    some base_slug, queries)

/-- The Django ORM semantics of the snapshot query on lines 138-143:
`scoped` is the list of slug values on the records that match
`filter_kwargs` with the saved instance's pk excluded, and the query keeps
those that start with the given base. -/
def scoped_slug_query (scopedSlugs : List (List Char)) (p : List Char) :
    List (List Char) :=
  scopedSlugs.filter (fun e => startswith e p)

/-- The full pipeline of `generate_unique_slug`: resolve the field path
(step 1), normalize with the external `slugify` (step 2), then run the
slug generation; a `PathResolutionError` propagates unchanged. -/
def generate_unique_slug_full (obj : Obj) (field_name : List Char)
    (slugify : List Char → List Char) (store : List Char → List (List Char))
    (random_digits_size : Nat) (charset : List Char) (max_length : Nat)
    (entropy : List (Nat → Nat)) :
    Except PathResolutionError (Option (List Char)) :=
  match resolve_field_value obj field_name with
  | .error e => .error e
  | .ok v =>
      .ok (generate_unique_slug (slugify v) store random_digits_size charset
        max_length entropy)

/-- A string starts with any of its own initial segments. -/
theorem startswith_append (p t : List Char) : startswith (p ++ t) p = true := by
  induction p with
  | nil =>
    cases t <;> rfl
  | cons c p ih =>
    simp [startswith, ih]

/-- Every string starts with the empty string. -/
theorem startswith_nil (e : List Char) : startswith e [] = true := by
  cases e <;> rfl

/-- A string starts with itself. -/
theorem startswith_self (p : List Char) : startswith p p = true := by
  have h := startswith_append p []
  simpa using h

/-- A successful run of the choice comprehension yields one character per
oracle position, each taken from the charset. -/
theorem choice_list_some (chars : List Char) (r : Nat → Nat) (is : List Nat)
    (l : List Char) (h : choice_list chars r is = some l) :
    l.length = is.length ∧ ∀ c ∈ l, c ∈ chars := by
  induction is generalizing l with
  | nil =>
    simp only [choice_list, Option.some.injEq] at h
    subst h
    simp
  | cons i is ih =>
    simp only [choice_list] at h
    cases hc : random_choice chars (r i) with
    | none => rw [hc] at h; exact absurd h (by simp)
    | some c =>
      rw [hc] at h
      cases hcs : choice_list chars r is with
      | none => rw [hcs] at h; exact absurd h (by simp)
      | some cs =>
        rw [hcs] at h
        simp only [Option.some.injEq] at h
        obtain ⟨hlen, hmem⟩ := ih cs hcs
        have hcin : c ∈ chars := by
          have := List.getElem?_mem hc
          exact this
        subst h
        refine ⟨by simp [hlen], ?_⟩
        intro x hx
        rcases List.mem_cons.mp hx with hx | hx
        · exact hx ▸ hcin
        · exact hmem x hx

/-- With a non-empty charset, the choice comprehension always succeeds. -/
theorem choice_list_total (chars : List Char) (hne : chars ≠ [])
    (r : Nat → Nat) (is : List Nat) : ∃ l, choice_list chars r is = some l := by
  induction is with
  | nil => exact ⟨[], rfl⟩
  | cons i is ih =>
    obtain ⟨l, hl⟩ := ih
    have hlt : r i % chars.length < chars.length :=
      Nat.mod_lt _ (List.length_pos.mpr hne)
    refine ⟨chars.get ⟨r i % chars.length, hlt⟩ :: l, ?_⟩
    simp [choice_list, random_choice, hl, List.getElem?_eq_getElem hlt]

/-- `random_string_generator` only returns strings of the requested size,
drawn from the charset. -/
theorem random_string_generator_some (size : Nat) (chars : List Char)
    (r : Nat → Nat) (l : List Char)
    (h : random_string_generator size chars r = some l) :
    l.length = size ∧ ∀ c ∈ l, c ∈ chars := by
  have := choice_list_some chars r (List.range size) l h
  simpa using this

/-- With a non-empty charset, `random_string_generator` always succeeds. -/
theorem random_string_generator_total (size : Nat) (chars : List Char)
    (hne : chars ≠ []) (r : Nat → Nat) :
    ∃ l, random_string_generator size chars r = some l ∧ l.length = size ∧
      ∀ c ∈ l, c ∈ chars := by
  obtain ⟨l, hl⟩ := choice_list_total chars hne r (List.range size)
  exact ⟨l, hl, random_string_generator_some size chars r l hl⟩

/-- On a nonnegative bound, Python slicing is an ordinary take. -/
theorem pyTake_of_nonneg (s : List Char) (n : Int) (h : 0 ≤ n) :
    pyTake s n = s.take n.toNat := by
  simp [pyTake, h]

/-- Anatomy of a successful loop iteration: the candidate is the
Python-sliced base followed by a hyphen and `size` charset characters. -/
theorem loop_candidate_some (base_slug : List Char) (max_length size : Nat)
    (charset : List Char) (r : Nat → Nat) (c : List Char)
    (h : loop_candidate base_slug max_length size charset r = some c) :
    ∃ rnd, random_string_generator size charset r = some rnd ∧
      rnd.length = size ∧ (∀ x ∈ rnd, x ∈ charset) ∧
      c = pyTake base_slug ((max_length : Int) - ((size : Int) + 1)) ++
        '-' :: rnd := by
  cases hr : random_string_generator size charset r with
  | none => rw [loop_candidate, hr] at h; exact absurd h (by simp)
  | some rnd =>
    obtain ⟨hlen, hmem⟩ := random_string_generator_some size charset r rnd hr
    rw [loop_candidate, hr] at h
    simp only [Option.some.injEq] at h
    refine ⟨rnd, rfl, hlen, hmem, ?_⟩
    rw [← h]
    show pyTake base_slug ((max_length : Int) - (('-' :: rnd).length : Int)) ++
      '-' :: rnd = _
    have hlen2 : (('-' :: rnd).length : Int) = (size : Int) + 1 := by
      simp [hlen]
    rw [hlen2]

/-- Every value the collision loop returns was formed by `loop_candidate`
and is absent from the snapshot it was checked against. -/
theorem slugLoop_some (base_slug : List Char) (existing_slugs : List (List Char))
    (size : Nat) (charset : List Char) (max_length : Nat)
    (entropy : List (Nat → Nat)) (s : List Char)
    (h : slugLoop base_slug existing_slugs size charset max_length entropy =
      some s) :
    s ∉ existing_slugs ∧
      ∃ r, loop_candidate base_slug max_length size charset r = some s := by
  induction entropy with
  | nil => exact absurd h (by simp [slugLoop])
  | cons r rest ih =>
    rw [slugLoop] at h
    split at h
    · exact absurd h (by simp)
    · rename_i new_slug hc
      split at h
      · exact ih h
      · rename_i hmem
        simp only [Option.some.injEq] at h
        subst h
        exact ⟨hmem, r, hc⟩

/-- Every value `generate_unique_slug` returns is absent from the snapshot,
and is either the base slug (fast path) or a loop candidate. -/
theorem generate_unique_slug_some (raw_slug : List Char)
    (store : List Char → List (List Char)) (size : Nat) (charset : List Char)
    (max_length : Nat) (entropy : List (Nat → Nat)) (s : List Char)
    (h : generate_unique_slug raw_slug store size charset max_length entropy =
      some s) :
    s ∉ store (raw_slug.take max_length) ∧
      (s = raw_slug.take max_length ∨
        ∃ r, loop_candidate (raw_slug.take max_length) max_length size charset r
          = some s) := by
  rw [generate_unique_slug] at h
  by_cases hmem : raw_slug.take max_length ∈ store (raw_slug.take max_length)
  · rw [if_pos hmem] at h
    obtain ⟨hnot, hr⟩ := slugLoop_some _ _ _ _ _ _ _ h
    exact ⟨hnot, Or.inr hr⟩
  · rw [if_neg hmem] at h
    simp only [Option.some.injEq] at h
    subst h
    exact ⟨hmem, Or.inl rfl⟩

/-- Claim C1, evaluation at the failing input: with raw slug
`"hello-world"`, `max_length = 12`, `suffix_size = 4`, charset `"a"`, and
scoped (non-excluded) existing slugs `["hello-world", "hello-w-aaaa"]`,
the code returns `"hello-w-aaaa"`, which equals an existing scoped slug:
the startswith-base snapshot misses truncated loop candidates, so the
returned identifier does not differ from every identifier stored on
records matching the scope filter, contradicting the claim and the
module's own docstring. -/
theorem claim_C1_bug_eval :
    generate_unique_slug "hello-world".toList
        (scoped_slug_query ["hello-world".toList, "hello-w-aaaa".toList]) 4
        ['a'] 12 [fun _ => 0] = some "hello-w-aaaa".toList ∧
      "hello-w-aaaa".toList ∈ ["hello-world".toList, "hello-w-aaaa".toList] := by
  decide

/-- Claim C2, counterexample: with `max_length = 3` and `suffix_size = 4`
(a pathological configuration the code does not validate), the returned
slug `"a-aaaa"` has length 6 > 3, so the length bound does not hold
"regardless of suffix_size". -/
theorem claim_C2_counterexample :
    generate_unique_slug "abc".toList (scoped_slug_query ["abc".toList]) 4
        ['a'] 3 [fun _ => 0] = some "a-aaaa".toList ∧
      3 < "a-aaaa".toList.length := by
  decide

/-- Claim C2, amended: whenever `suffix_size + 1 <= max_length` (so the
suffix fits in the cap), every returned slug has length at most
`max_length`, for every length of the normalized base candidate. -/
theorem claim_C2_amended (raw_slug : List Char)
    (store : List Char → List (List Char)) (size : Nat) (charset : List Char)
    (max_length : Nat) (entropy : List (Nat → Nat)) (s : List Char)
    (hsz : size + 1 ≤ max_length)
    (hg : generate_unique_slug raw_slug store size charset max_length entropy =
      some s) :
    s.length ≤ max_length := by
  obtain ⟨-, hcase⟩ := generate_unique_slug_some _ _ _ _ _ _ _ hg
  rcases hcase with rfl | ⟨r, hr⟩
  · simp [List.length_take]
  · obtain ⟨rnd, -, hrl, -, rfl⟩ := loop_candidate_some _ _ _ _ _ _ hr
    have hnn : (0 : Int) ≤ (max_length : Int) - ((size : Int) + 1) := by omega
    rw [pyTake_of_nonneg _ _ hnn]
    simp only [List.length_append, List.length_take, List.length_cons, hrl]
    omega

/-- Witness for C2 amended at `suffix_size = 4`, `max_length = 75`, raw
slug `"hello"`, empty store answer. -/
theorem claim_C2_witness : 4 + 1 ≤ 75 ∧ "hello".toList.length ≤ 75 :=
  ⟨by decide, claim_C2_amended "hello".toList (fun _ => []) 4 [] 75 []
    "hello".toList (by decide) (by decide)⟩

/-- Claim C3, counterexample: with raw slug `"hello-world"` and
`max_length = 12`, the loop's candidate `"hello-w-aaaa"` is returned yet
does not start with the base candidate `"hello-world"`, so the
startswith-base snapshot does not contain every scoped identifier that
could equal a loop candidate. -/
theorem claim_C3_counterexample :
    generate_unique_slug "hello-world".toList
        (scoped_slug_query ["hello-world".toList]) 4 ['a'] 12 [fun _ => 0] =
        some "hello-w-aaaa".toList ∧
      startswith "hello-w-aaaa".toList "hello-world".toList = false := by
  decide

/-- Claim C3, amended: when the base candidate is short enough that no
truncation happens (`len(base) + suffix_size + 1 <= max_length`), every
returned slug starts with the base candidate, and hence every scoped
existing identifier equal to it lies in the startswith-base snapshot. -/
theorem claim_C3_amended (raw_slug : List Char) (scopedSlugs : List (List Char))
    (size : Nat) (charset : List Char) (max_length : Nat)
    (entropy : List (Nat → Nat)) (s : List Char)
    (hlen : (raw_slug.take max_length).length + size + 1 ≤ max_length)
    (hg : generate_unique_slug raw_slug (scoped_slug_query scopedSlugs) size
      charset max_length entropy = some s) :
    startswith s (raw_slug.take max_length) = true ∧
      ∀ e ∈ scopedSlugs, e = s →
        e ∈ scoped_slug_query scopedSlugs (raw_slug.take max_length) := by
  obtain ⟨-, hcase⟩ := generate_unique_slug_some _ _ _ _ _ _ _ hg
  have hsw : startswith s (raw_slug.take max_length) = true := by
    rcases hcase with rfl | ⟨r, hr⟩
    · exact startswith_self _
    · obtain ⟨rnd, -, hrl, -, rfl⟩ := loop_candidate_some _ _ _ _ _ _ hr
      have hnn : (0 : Int) ≤ (max_length : Int) - ((size : Int) + 1) := by
        omega
      rw [pyTake_of_nonneg _ _ hnn]
      have htk : (raw_slug.take max_length).take
          (((max_length : Int) - ((size : Int) + 1)).toNat) =
          raw_slug.take max_length := by
        apply List.take_of_length_le
        omega
      rw [htk]
      exact startswith_append _ _
  refine ⟨hsw, ?_⟩
  intro e he heq
  subst heq
  simp only [scoped_slug_query, List.mem_filter]
  exact ⟨he, hsw⟩

/-- Witness for C3 amended at raw slug `"hi"`, `max_length = 10`,
`suffix_size = 4`, a colliding scoped slug, and a first draw of
`"aaaa"`. -/
theorem claim_C3_witness :
    ("hi".toList.take 10).length + 4 + 1 ≤ 10 ∧
      (startswith "hi-aaaa".toList ("hi".toList.take 10) = true ∧
        ∀ e ∈ ["hi".toList], e = "hi-aaaa".toList →
          e ∈ scoped_slug_query ["hi".toList] ("hi".toList.take 10)) :=
  ⟨by decide, claim_C3_amended "hi".toList ["hi".toList] 4 ['a'] 10
    [fun _ => 0] "hi-aaaa".toList (by decide) (by decide)⟩

/-- Claim C4: fast-path purity — whenever the base candidate (the first
`max_length` characters of the normalized string) is not in the snapshot
the store returns for it, `generate_unique_slug` returns exactly that
candidate, with no suffix and no extra characters. -/
theorem claim_C4 (raw_slug : List Char)
    (store : List Char → List (List Char)) (size : Nat) (charset : List Char)
    (max_length : Nat) (entropy : List (Nat → Nat))
    (h : raw_slug.take max_length ∉ store (raw_slug.take max_length)) :
    generate_unique_slug raw_slug store size charset max_length entropy =
      some (raw_slug.take max_length) := by
  rw [generate_unique_slug, if_neg h]

/-- Witness for C4 at the spec scenario: a normalized candidate of length
80 with `max_length = 75` and no collision returns exactly its first 75
characters. -/
theorem claim_C4_witness :
    (List.replicate 80 'a').take 75 ∉
        scoped_slug_query [] ((List.replicate 80 'a').take 75) ∧
      generate_unique_slug (List.replicate 80 'a') (scoped_slug_query []) 4
        ['a'] 75 [] = some ((List.replicate 80 'a').take 75) ∧
      (List.replicate 80 'a').take 75 = List.replicate 75 'a' :=
  ⟨by decide,
    claim_C4 (List.replicate 80 'a') (scoped_slug_query []) 4 ['a'] 75 []
      (by decide),
    by decide⟩

/-- Claim C5: every non-fast-path result (the base candidate collided) is
exactly the Python-sliced base `base_slug[:max_length - suffix_size - 1]`
followed by a hyphen and `suffix_size` characters drawn from the
charset. -/
theorem claim_C5 (raw_slug : List Char)
    (store : List Char → List (List Char)) (size : Nat) (charset : List Char)
    (max_length : Nat) (entropy : List (Nat → Nat)) (s : List Char)
    (hcol : raw_slug.take max_length ∈ store (raw_slug.take max_length))
    (hg : generate_unique_slug raw_slug store size charset max_length entropy =
      some s) :
    ∃ rnd, rnd.length = size ∧ (∀ x ∈ rnd, x ∈ charset) ∧
      s = pyTake (raw_slug.take max_length)
        ((max_length : Int) - ((size : Int) + 1)) ++ '-' :: rnd := by
  obtain ⟨hnot, hcase⟩ := generate_unique_slug_some _ _ _ _ _ _ _ hg
  rcases hcase with rfl | ⟨r, hr⟩
  · exact absurd hcol hnot
  · obtain ⟨rnd, -, hrl, hmem, rfl⟩ := loop_candidate_some _ _ _ _ _ _ hr
    exact ⟨rnd, hrl, hmem, rfl⟩

/-- Witness for C5 at the spec scenario: base candidate of length 74,
`max_length = 75`, collision on the base, `suffix_size = 4` — the
truncated base keeps 70 characters and the result has length exactly
75. -/
theorem claim_C5_witness :
    (List.replicate 74 'a').take 75 ∈
        scoped_slug_query [List.replicate 74 'a']
          ((List.replicate 74 'a').take 75) ∧
      (∃ rnd, rnd.length = 4 ∧ (∀ x ∈ rnd, x ∈ ['b']) ∧
        List.replicate 70 'a' ++ '-' :: "bbbb".toList =
          pyTake ((List.replicate 74 'a').take 75)
            (((75 : Nat) : Int) - (((4 : Nat) : Int) + 1)) ++ '-' :: rnd) ∧
      (List.replicate 70 'a' ++ '-' :: "bbbb".toList).length = 75 :=
  ⟨by decide,
    claim_C5 (List.replicate 74 'a') (scoped_slug_query [List.replicate 74 'a'])
      4 ['b'] 75 [fun _ => 0] (List.replicate 70 'a' ++ '-' :: "bbbb".toList)
      (by decide) (by decide),
    by decide⟩

/-- Claim C6: resolving `"a__b"` against a root whose attribute `a` has
attribute `b` with string value `v` returns `v`; and whenever any segment
lookup fails, the resolver fails with the error carrying the full original
path and the root's class name, returning no partial result. -/
theorem claim_C6 (v ca cb sa cr sr : List Char)
    (battrs : List (List Char × Obj)) (root : Obj) (path : List Char)
    (hfail : resolveAttrs root (splitDunder path) = none) :
    resolve_field_value
        (Obj.mk cr sr
          [("a".toList, Obj.mk ca sa [("b".toList, Obj.mk cb v battrs)])])
        "a__b".toList = .ok v ∧
      resolve_field_value root path = .error ⟨path, root.className⟩ := by
  constructor
  · rfl
  · rw [resolve_field_value, hfail]

/-- Witness for C6: the two-level object graph of the claim, with
`str(b) = "7"`, and the failing path `"a__missing"` where `a` lacks
`missing`. -/
theorem claim_C6_witness :
    resolve_field_value
        (Obj.mk "M".toList "".toList
          [("a".toList, Obj.mk "A".toList "s".toList
            [("b".toList, Obj.mk "B".toList "7".toList [])])])
        "a__b".toList = .ok "7".toList ∧
      resolve_field_value
        (Obj.mk "M".toList "".toList
          [("a".toList, Obj.mk "A".toList "s".toList
            [("b".toList, Obj.mk "B".toList "7".toList [])])])
        "a__missing".toList = .error ⟨"a__missing".toList, "M".toList⟩ :=
  claim_C6 "7".toList "A".toList "B".toList "s".toList "M".toList "".toList []
    (Obj.mk "M".toList "".toList
      [("a".toList, Obj.mk "A".toList "s".toList
        [("b".toList, Obj.mk "B".toList "7".toList [])])])
    "a__missing".toList rfl

/-- Claim C7: `generate_unique_slug` issues exactly one record-store query
(the startswith snapshot taken before the loop), and the collision loop
consults only that snapshot: the result depends on the store only through
its answer to that single query. -/
theorem claim_C7 (raw_slug : List Char)
    (store store' : List Char → List (List Char)) (size : Nat)
    (charset : List Char) (max_length : Nat) (entropy : List (Nat → Nat))
    (hagree : store (raw_slug.take max_length) =
      store' (raw_slug.take max_length)) :
    (generate_unique_slug_query_count raw_slug store size charset max_length
        entropy).snd = 1 ∧
      (generate_unique_slug_query_count raw_slug store size charset max_length
        entropy).fst =
        generate_unique_slug raw_slug store size charset max_length entropy ∧
      generate_unique_slug raw_slug store size charset max_length entropy =
        generate_unique_slug raw_slug store' size charset max_length entropy := by
  refine ⟨rfl, rfl, ?_⟩
  simp only [generate_unique_slug]
  rw [hagree]

/-- Witness for C7: two stores agreeing on the snapshot query produce the
same result, and the query count is one. -/
theorem claim_C7_witness :
    scoped_slug_query [] ("hi".toList.take 75) =
        (fun _ => ([] : List (List Char))) ("hi".toList.take 75) ∧
      ((generate_unique_slug_query_count "hi".toList (scoped_slug_query []) 4
          ['a'] 75 []).snd = 1 ∧
        (generate_unique_slug_query_count "hi".toList (scoped_slug_query []) 4
          ['a'] 75 []).fst =
          generate_unique_slug "hi".toList (scoped_slug_query []) 4 ['a'] 75
            [] ∧
        generate_unique_slug "hi".toList (scoped_slug_query []) 4 ['a'] 75 [] =
          generate_unique_slug "hi".toList (fun _ => []) 4 ['a'] 75 []) :=
  ⟨rfl, claim_C7 "hi".toList (scoped_slug_query []) (fun _ => []) 4 ['a'] 75 []
    rfl⟩

/-- Claim C8: with base candidate `"hello-world"`, snapshot existing set
exactly `{"hello-world"}`, `suffix_size = 4` and charset `"abc123"`, the
collision loop terminates on its first iteration for every possible random
draw (a single-iteration oracle supply suffices), returning
`"hello-world-XXXX"` with the four `X` characters from the charset, a
string not in `{"hello-world"}`. -/
theorem claim_C8 (r : Nat → Nat) :
    ∃ rnd, rnd.length = 4 ∧ (∀ x ∈ rnd, x ∈ "abc123".toList) ∧
      generate_unique_slug "hello-world".toList
        (scoped_slug_query ["hello-world".toList]) 4 "abc123".toList 75 [r] =
        some ("hello-world".toList ++ '-' :: rnd) ∧
      "hello-world".toList ++ '-' :: rnd ∉ ["hello-world".toList] := by
  obtain ⟨rnd, hr, hlen, hmem⟩ :=
    random_string_generator_total 4 "abc123".toList (by decide) r
  have hne : "hello-world".toList ++ '-' :: rnd ∉ ["hello-world".toList] := by
    intro hmem'
    simp only [List.mem_singleton] at hmem'
    have hlen' := congrArg List.length hmem'
    simp [hlen] at hlen'
  have hcand : loop_candidate "hello-world".toList 75 4 "abc123".toList r =
      some ("hello-world".toList ++ '-' :: rnd) := by
    rw [loop_candidate, hr]
    show some (pyTake "hello-world".toList
        ((75 : Int) - (('-' :: rnd).length : Int)) ++ '-' :: rnd) =
      some ("hello-world".toList ++ '-' :: rnd)
    have h5 : (('-' :: rnd).length : Int) = 5 := by simp [hlen]
    rw [h5]
    rfl
  refine ⟨rnd, hlen, hmem, ?_, hne⟩
  have hbase : "hello-world".toList.take 75 = "hello-world".toList := by decide
  rw [generate_unique_slug, hbase]
  have hq : scoped_slug_query ["hello-world".toList] "hello-world".toList =
      ["hello-world".toList] := by decide
  rw [hq, if_pos (show "hello-world".toList ∈ ["hello-world".toList] by decide)]
  rw [slugLoop, hcand]
  show (if "hello-world".toList ++ '-' :: rnd ∈ ["hello-world".toList] then
      slugLoop "hello-world".toList ["hello-world".toList] 4 "abc123".toList 75
        []
    else some ("hello-world".toList ++ '-' :: rnd)) =
    some ("hello-world".toList ++ '-' :: rnd)
  rw [if_neg hne]

/-- Claim C9: when the normalizer yields the empty string, the base
candidate is `""`, the startswith snapshot contains every scoped
identifier, and when no other scoped record has the empty identifier the
function returns the empty string — no error and no minimum length. -/
theorem claim_C9 (scopedSlugs : List (List Char)) (size : Nat)
    (charset : List Char) (max_length : Nat) (entropy : List (Nat → Nat))
    (h : ([] : List Char) ∉ scopedSlugs) :
    scoped_slug_query scopedSlugs [] = scopedSlugs ∧
      generate_unique_slug [] (scoped_slug_query scopedSlugs) size charset
        max_length entropy = some [] := by
  have hq : scoped_slug_query scopedSlugs [] = scopedSlugs := by
    rw [scoped_slug_query]
    apply List.filter_eq_self.mpr
    intro a _
    exact startswith_nil a
  refine ⟨hq, ?_⟩
  rw [generate_unique_slug, List.take_nil, hq, if_neg h]

/-- Witness for C9 with one scoped slug `"x"` and default-like
parameters. -/
theorem claim_C9_witness :
    (([] : List Char) ∉ ["x".toList]) ∧
      (scoped_slug_query ["x".toList] [] = ["x".toList] ∧
        generate_unique_slug [] (scoped_slug_query ["x".toList]) 4 ['a'] 75 [] =
          some []) :=
  ⟨by decide, claim_C9 ["x".toList] 4 ['a'] 75 [] (by decide)⟩

/-- Claim C10: under `suffix_size + 1 <= max_length` (exactly the
condition making `allowed_base_length` nonnegative) and a non-empty
charset, every candidate the loop body forms has length exactly
`min(len(base), max_length - suffix_size - 1) + suffix_size + 1`, which is
at most `max_length`. -/
theorem claim_C10 (base_slug : List Char) (size max_length : Nat)
    (charset : List Char) (r : Nat → Nat) (hsz : size + 1 ≤ max_length)
    (hne : charset ≠ []) :
    (0 ≤ (max_length : Int) - ((size : Int) + 1) ↔ size + 1 ≤ max_length) ∧
      ∃ c, loop_candidate base_slug max_length size charset r = some c ∧
        c.length = min base_slug.length (max_length - size - 1) + (size + 1) ∧
        c.length ≤ max_length := by
  refine ⟨by omega, ?_⟩
  obtain ⟨rnd, hr, hlen, -⟩ := random_string_generator_total size charset hne r
  have hnn : (0 : Int) ≤ (max_length : Int) - ((size : Int) + 1) := by omega
  have hlc : (pyTake base_slug ((max_length : Int) - ((size : Int) + 1)) ++
      '-' :: rnd).length =
      min base_slug.length (max_length - size - 1) + (size + 1) := by
    rw [pyTake_of_nonneg _ _ hnn]
    simp only [List.length_append, List.length_take, List.length_cons, hlen]
    omega
  refine ⟨pyTake base_slug ((max_length : Int) - ((size : Int) + 1)) ++
    '-' :: rnd, ?_, hlc, ?_⟩
  · rw [loop_candidate, hr]
    show some (pyTake base_slug
        ((max_length : Int) - (('-' :: rnd).length : Int)) ++ '-' :: rnd) = _
    have h5 : (('-' :: rnd).length : Int) = (size : Int) + 1 := by simp [hlen]
    rw [h5]
  · rw [hlc]
    omega

/-- Witness for C10 at base `"hello"`, `suffix_size = 4`,
`max_length = 75`, charset `"a"`. -/
theorem claim_C10_witness :
    (4 + 1 ≤ 75 ∧ (['a'] : List Char) ≠ []) ∧
      ((0 ≤ ((75 : Nat) : Int) - (((4 : Nat) : Int) + 1) ↔ 4 + 1 ≤ 75) ∧
        ∃ c, loop_candidate "hello".toList 75 4 ['a'] (fun _ => 0) = some c ∧
          c.length = min "hello".toList.length (75 - 4 - 1) + (4 + 1) ∧
          c.length ≤ 75) :=
  ⟨⟨by decide, by decide⟩,
    claim_C10 "hello".toList 4 75 ['a'] (fun _ => 0) (by decide) (by decide)⟩

